import Mathlib

/-!
Verification of the masternode-list / quorum diff engine of the
`electrum_dash` wallet (`electrum_dash/protx_list.py`).

Python byte strings are embedded as `List Nat` (each element a byte value);
Python text strings are embedded as `List Nat` of character codes.  Python
dicts (which the engine only ever queries by key, updates by key, deletes by
key and iterates) are embedded as association lists with the insertion-order
semantics of CPython dicts: inserting an existing key overwrites in place,
inserting a fresh key appends.
-/

set_option maxHeartbeats 1000000
set_option maxRecDepth 10000

/-- Byte strings: each element is one byte value. -/
abbrev Bytes := List Nat

/-- Text strings: each element is one character code. -/
abbrev Str := List Nat

/-- Lowercase hex digit for a nibble (as used by `binascii.hexlify`). -/
def hexDigitCode (n : Nat) : Nat :=
  if n < 10 then 48 + n else 87 + n

/-- `bh2u` of `electrum_dash.util`: bytes to lowercase hex string. -/
def bh2u : Bytes → Str
  | [] => []
  | x :: t => hexDigitCode (x / 16) :: hexDigitCode (x % 16) :: bh2u t

/-- `hfu` of `electrum_dash.util`: hexlify; same characters as `bh2u`. -/
abbrev hfu := bh2u

/-- Value of one hex character code (0 for a non-hex character; the checked
variant `bfhChecked` rejects those). -/
def hexCodeVal (c : Nat) : Nat :=
  if 48 ≤ c ∧ c ≤ 57 then c - 48
  else if 97 ≤ c ∧ c ≤ 102 then c - 87
  else if 65 ≤ c ∧ c ≤ 70 then c - 55
  else 0

/-- `bfh` of `electrum_dash.util`: hex string to bytes. -/
def bfh : Str → Bytes
  | c1 :: c2 :: t => (16 * hexCodeVal c1 + hexCodeVal c2) :: bfh t
  | _ => []

/-- Whether a character code is a hex digit. -/
def isHexCode (c : Nat) : Bool :=
  decide ((48 ≤ c ∧ c ≤ 57) ∨ (97 ≤ c ∧ c ≤ 102) ∨ (65 ≤ c ∧ c ≤ 70))

/-- Hex decoding that fails (like Python `bfh` raising) on odd length or
non-hex characters. -/
def bfhChecked (s : Str) : Option Bytes :=
  if s.length % 2 = 0 ∧ s.all isHexCode then some (bfh s) else none

/-! SHA-256.  Modelled from the spec: the engine hashes with `sha256d`
("SHA-256d", i.e. SHA-256 applied twice) imported from the `crypto` module,
which is not among the given sources; this is the standard FIPS 180-4
SHA-256 over byte lists. -/

/-- 2^32, the word modulus of SHA-256. -/
def M32 : Nat := 4294967296

/-- Rotate a 32-bit word right by `n`. -/
def rotr (n x : Nat) : Nat :=
  ((x >>> n) ||| (x <<< (32 - n))) % M32

/-- SHA-256 choice function. -/
def shaCh (x y z : Nat) : Nat :=
  (x &&& y) ^^^ ((x ^^^ 4294967295) &&& z)

/-- SHA-256 majority function. -/
def shaMaj (x y z : Nat) : Nat :=
  (x &&& y) ^^^ (x &&& z) ^^^ (y &&& z)

/-- SHA-256 big sigma 0. -/
def bigSigma0 (x : Nat) : Nat := rotr 2 x ^^^ rotr 13 x ^^^ rotr 22 x

/-- SHA-256 big sigma 1. -/
def bigSigma1 (x : Nat) : Nat := rotr 6 x ^^^ rotr 11 x ^^^ rotr 25 x

/-- SHA-256 small sigma 0. -/
def smallSigma0 (x : Nat) : Nat := rotr 7 x ^^^ rotr 18 x ^^^ (x >>> 3)

/-- SHA-256 small sigma 1. -/
def smallSigma1 (x : Nat) : Nat := rotr 17 x ^^^ rotr 19 x ^^^ (x >>> 10)

/-- SHA-256 round constants. -/
def shaK : List Nat :=
  [1116352408, 1899447441, 3049323471, 3921009573, 961987163,
   1508970993, 2453635748, 2870763221, 3624381080, 310598401,
   607225278, 1426881987, 1925078388, 2162078206, 2614888103,
   3248222580, 3835390401, 4022224774, 264347078, 604807628,
   770255983, 1249150122, 1555081692, 1996064986, 2554220882,
   2821834349, 2952996808, 3210313671, 3336571891, 3584528711,
   113926993, 338241895, 666307205, 773529912, 1294757372,
   1396182291, 1695183700, 1986661051, 2177026350, 2456956037,
   2730485921, 2820302411, 3259730800, 3345764771, 3516065817,
   3600352804, 4094571909, 275423344, 430227734, 506948616,
   659060556, 883997877, 958139571, 1322822218, 1537002063,
   1747873779, 1955562222, 2024104815, 2227730452, 2361852424,
   2428436474, 2756734187, 3204031479, 3329325298]

/-- SHA-256 initial hash state. -/
def shaH0 : List Nat :=
  [1779033703, 3144134277, 1013904242, 2773480762, 1359893119,
   2600822924, 528734635, 1541459225]

/-- 64-bit big-endian encoding of a length (in bits). -/
def be64 (n : Nat) : List Nat :=
  [n >>> 56 % 256, n >>> 48 % 256, n >>> 40 % 256, n >>> 32 % 256,
   n >>> 24 % 256, n >>> 16 % 256, n >>> 8 % 256, n % 256]

/-- SHA-256 message padding. -/
def padMessage (msg : List Nat) : List Nat :=
  let L := msg.length
  let k := (119 - L % 64) % 64
  msg ++ 128 :: List.replicate k 0 ++ be64 (8 * L)

/-- Bytes to 32-bit big-endian words. -/
def toWords32 : List Nat → List Nat
  | b0 :: b1 :: b2 :: b3 :: rest =>
    (((b0 * 256 + b1) * 256 + b2) * 256 + b3) :: toWords32 rest
  | _ => []

/-- Extend the 16-word schedule by `n` further words. -/
def extendSchedule : Nat → List Nat → List Nat
  | 0, w => w
  | n + 1, w =>
    let l := w.length
    let wt := (smallSigma1 (w.getD (l - 2) 0) + w.getD (l - 7) 0 +
               smallSigma0 (w.getD (l - 15) 0) + w.getD (l - 16) 0) % M32
    extendSchedule n (w ++ [wt])

/-- One SHA-256 round on the 8-word working state. -/
def compressRound (st : List Nat) (wt kt : Nat) : List Nat :=
  match st with
  | [a, b, c, d, e, f, g, h] =>
    let t1 := (h + bigSigma1 e + shaCh e f g + kt + wt) % M32
    let t2 := (bigSigma0 a + shaMaj a b c) % M32
    [(t1 + t2) % M32, a, b, c, (d + t1) % M32, e, f, g]
  | _ => st

/-- Compress one 64-byte block into the running hash state. -/
def compressBlock (h : List Nat) (block : List Nat) : List Nat :=
  let w := extendSchedule 48 (toWords32 block)
  let st := (w.zip shaK).foldl (fun s p => compressRound s p.1 p.2) h
  (h.zip st).map (fun p => (p.1 + p.2) % M32)

/-- Split a (padded) message into 64-byte blocks; the fuel argument (any
bound on the number of blocks, the callers pass the message length) makes
the recursion structural. -/
def toBlocksFuel : Nat → List Nat → List (List Nat)
  | 0, _ => []
  | _ + 1, [] => []
  | n + 1, l => l.take 64 :: toBlocksFuel n (l.drop 64)

/-- Split a (padded) message into 64-byte blocks. -/
def toBlocks (l : List Nat) : List (List Nat) :=
  toBlocksFuel l.length l

/-- SHA-256 of a byte list. -/
def sha256 (msg : Bytes) : Bytes :=
  let hh := (toBlocks (padMessage msg)).foldl compressBlock shaH0
  hh.foldr (fun w acc =>
    (w >>> 24 % 256) :: (w >>> 16 % 256) :: (w >>> 8 % 256) :: (w % 256) :: acc) []

/-- `sha256d` of `electrum_dash.crypto`: double SHA-256. -/
def sha256d (msg : Bytes) : Bytes := sha256 (sha256 msg)

example : sha256 [] =
    [0xe3, 0xb0, 0xc4, 0x42, 0x98, 0xfc, 0x1c, 0x14,
     0x9a, 0xfb, 0xf4, 0xc8, 0x99, 0x6f, 0xb9, 0x24,
     0x27, 0xae, 0x41, 0xe4, 0x64, 0x9b, 0x93, 0x4c,
     0xa4, 0x95, 0x99, 0x1b, 0x78, 0x52, 0xb8, 0x55] := by decide

example : sha256d [] =
    [0x5d, 0xf6, 0xe0, 0xe2, 0x76, 0x13, 0x59, 0xd3,
     0x0a, 0x82, 0x75, 0x05, 0x8e, 0x29, 0x9f, 0xcc,
     0x03, 0x81, 0x53, 0x45, 0x45, 0xf5, 0x5c, 0xf4,
     0x3e, 0x41, 0x98, 0x3f, 0x5d, 0x4c, 0x94, 0x56] := by decide

/-! Association-list embedding of Python dicts keyed by strings. -/

/-- Embedding of a Python dict with `Str` keys: an insertion-ordered
association list. -/
abbrev AL (V : Type) := List (Str × V)

/-- Dict assignment `d[k] = v`: overwrite in place when the key exists,
append otherwise (CPython dict semantics). -/
def alInsert {V : Type} : AL V → Str → V → AL V
  | [], k, v => [(k, v)]
  | (k', v') :: t, k, v =>
    if k' = k then (k, v) :: t else (k', v') :: alInsert t k v

/-- Dict deletion `del d[k]` (the engine always guards it with `k in d`, so
a missing key is a no-op here). -/
def alErase {V : Type} : AL V → Str → AL V
  | [], _ => []
  | (k', v') :: t, k =>
    if k' = k then t else (k', v') :: alErase t k

/-! Sorting, as Python `sorted` (stable, ascending). -/

/-- Insert into a sorted list, before the first strictly greater element
(so equal elements keep their original relative order). -/
def insertLe {α : Type} (le : α → α → Bool) (x : α) : List α → List α
  | [] => [x]
  | y :: ys => if le x y then x :: y :: ys else y :: insertLe le x ys

/-- Stable insertion sort: the embedding of Python `sorted`. -/
def sortBy {α : Type} (le : α → α → Bool) : List α → List α
  | [] => []
  | x :: xs => insertLe le x (sortBy le xs)

/-- Lexicographic comparison of byte strings, as Python compares `bytes`. -/
def bytesLe : Bytes → Bytes → Bool
  | [], _ => true
  | _ :: _, [] => false
  | a :: as, b :: bs =>
    if a < b then true else if b < a then false else bytesLe as bs

/-! The merkle-root computation (`MNList.calc_merkle_root`). -/

/-- One level of the merkle tree: hash adjacent pairs, exactly the
`for i in range(hashes_len//2)` loop of `calc_merkle_root`. -/
def pairUp (l : List Bytes) : List Bytes :=
  (List.range (l.length / 2)).map
    (fun i => sha256d (l.getD (i * 2) [] ++ l.getD (i * 2 + 1) []))

/-- The `while True` loop of `calc_merkle_root`: stop at a single hash,
duplicate the last hash when the level has an odd count, then pair up.
The fuel (any bound on the iteration count; callers pass the list length)
makes the recursion structural; when it would run out the current level is
at most one hash and its head is returned, matching the loop's only exit. -/
def merkleLoopFuel : Nat → List Bytes → Bytes
  | 0, hs => hs.headD []
  | n + 1, hs =>
    if hs.length ≤ 1 then hs.headD []
    else if hs.length % 2 = 1 then merkleLoopFuel n (pairUp (hs ++ [hs.getLastD []]))
    else merkleLoopFuel n (pairUp hs)

/-- The merkle loop at fuel equal to the level size (which always bounds
the number of halving iterations). -/
def merkleLoop (hs : List Bytes) : Bytes :=
  merkleLoopFuel hs.length hs

/-- `MNList.calc_merkle_root`: an empty list is replaced by a single
zero-filled 32-byte placeholder leaf; the final hash is returned
byte-reversed and hex-encoded. -/
def calc_merkle_root (hashes : List Bytes) : Str :=
  let hs := if hashes.length = 0 then [List.replicate 32 0] else hashes
  hfu (merkleLoop hs).reverse

/-! Message and transaction data (`dash_msg.DashSMLEntry`,
`dash_msg.DashQFCommitMsg` and the CbTx special transaction).  These types
are outside the given sources; the engine only reads the fields embedded
here (`proRegTxHash`, `quorumHash`, `llmqType`, the serialization it
hashes, and the CbTx extra payload), so they are carried as given data. -/

/-- A simplified-masternode-list entry: its `proRegTxHash` and its
serialization `ser` (what `serialize()` returns and `sha256d` hashes). -/
structure DashSMLEntry where
  proRegTxHash : Bytes
  ser : Bytes
deriving DecidableEq

/-- A quorum final commitment message: `llmqType`, `quorumHash` and its
serialization `ser`. -/
structure DashQFCommitMsg where
  llmqType : Nat
  quorumHash : Bytes
  ser : Bytes
deriving DecidableEq

/-- The extra payload of a CbTx (DIP4 coinbase special transaction). -/
structure CbTxExtra where
  version : Nat
  height : Int
  merkleRootMNList : Bytes
  merkleRootQuorums : Bytes
deriving DecidableEq

/-- A coinbase transaction as the diff engine reads it: its special
transaction type, version, txid (hex, as `Transaction.txid()` returns) and
extra payload. -/
structure CbTx where
  tx_type : Nat
  version : Nat
  txid : Str
  extra_payload : CbTxExtra
deriving DecidableEq

/-- An `MNLISTDIFF` p2p message (`on_mnlistdiff` input). -/
structure MNListDiffMsg where
  cbTx : CbTx
  deletedMNs : List Bytes
  mnList : List DashSMLEntry
  deletedQuorums : List (Bytes × Nat)
  newQuorums : List DashQFCommitMsg
  merkleHashes : List Bytes
deriving DecidableEq

/-- A `protx.diff` electrum-server response (`on_protx_diff` input): hashes
come as hex strings, the merkle tree as an optional list of hex hashes (the
already-parsed `PartialMerkleTree.hashes`; a missing/empty field is
`none`). -/
structure ProtxDiff where
  cbTx : CbTx
  deletedMNs : List Str
  mnList : List (Str × DashSMLEntry)
  cbTxMerkleTree : Option (List Str)
deriving DecidableEq

/-- The `recent_list` persisted snapshot dict of `MNList`. -/
structure RecentList where
  protx_height : Int
  llmq_height : Int
  protx_mns : AL DashSMLEntry
  sml_hashes : AL Bytes
  quorums : AL DashQFCommitMsg
  llmq_hashes : AL Bytes
deriving DecidableEq

/-- The mutable state of an `MNList` engine instance. -/
structure MNState where
  protx_height : Int
  llmq_height : Int
  protx_mns : AL DashSMLEntry
  sml_hashes : AL Bytes
  quorums : AL DashQFCommitMsg
  llmq_hashes : AL Bytes
  protx_info : AL Str
  mns_outpoints : AL Str
  protx_state : Nat
  diff_deleted_mns : List Str
  diff_hashes : List Str
  recent_list : RecentList
deriving DecidableEq

/-- `MNList.DIP3_DISABLED`. -/
def DIP3_DISABLED : Nat := 0

/-- `MNList.DIP3_ENABLED`. -/
def DIP3_ENABLED : Nat := 1

/-- `MNList.DIP3_UNKNOWN`. -/
def DIP3_UNKNOWN : Nat := 2

/-- `MNList.LLMQ_OFFSET`. -/
def LLMQ_OFFSET : Int := 8

/-- `MNList.llmq_tip`: the local chain height minus the LLMQ offset. -/
def llmq_tip (local_height : Int) : Int :=
  local_height - LLMQ_OFFSET

/-! Merkle-root verification (`check_sml_merkle_root`,
`check_llmq_merkle_root`, `check_cbtx_merkle_root`). -/

/-- The sort of `check_sml_merkle_root`: dict items ordered by
`bfh(key)[::-1]`, the byte-reversed form of the hex key. -/
def sortSmlItems (d : AL Bytes) : AL Bytes :=
  sortBy (fun a b => bytesLe (bfh a.1).reverse (bfh b.1).reverse) d

/-- `MNList.check_sml_merkle_root`: merkle root of the SML entry hashes
(values sorted by byte-reversed key) against `cbTx.merkleRootMNList`. -/
def check_sml_merkle_root (d : AL Bytes) (cbtx_extra : CbTxExtra) : Bool :=
  let sml_hashes := (sortSmlItems d).map (fun p => p.2)
  calc_merkle_root sml_hashes == hfu cbtx_extra.merkleRootMNList.reverse

/-- `MNList.check_llmq_merkle_root`: merkle root of the quorum commitment
hashes (dict values sorted by raw hash bytes) against
`cbTx.merkleRootQuorums`. -/
def check_llmq_merkle_root (d : AL Bytes) (cbtx_extra : CbTxExtra) : Bool :=
  let llmq_hashes := sortBy bytesLe (d.map (fun p => p.2))
  calc_merkle_root llmq_hashes == hfu cbtx_extra.merkleRootQuorums.reverse

/-- Modelled from the spec: `SPV.hash_merkle_root` of `electrum_dash.verifier`
(not among the given sources) rolls the remaining hashes up against the
leaf, pairing left/right according to the leaf position bits; hex hashes
are byte-reversed before hashing and the result is reversed back. -/
def hash_merkle_root (branch : List Str) (tx_hash : Str) (leaf_pos : Nat) : Str :=
  let h := branch.enum.foldl
    (fun h p =>
      if (leaf_pos >>> p.1) % 2 = 1 then sha256d ((bfh p.2).reverse ++ h)
      else sha256d (h ++ (bfh p.2).reverse))
    (bfh tx_hash).reverse
  bh2u h.reverse

/-- `MNList.check_cbtx_merkle_root`: check that the CbTx is the first hash
of the supplied merkle-hash list (`merkle_tree` from a protx diff, or the
flat `hashes` list from an mnlistdiff), remove it, roll the rest up and
compare with the block header's merkle root.  `read_header` stands for
`self.network.blockchain().read_header(height)`, returning the header's
merkle root when the header is available. -/
def check_cbtx_merkle_root (read_header : Int → Option Str) (cbtx : CbTx)
    (merkle_tree : Option (List Str)) (hashes : Option (List Bytes)) : Bool :=
  let pmtOpt : Option (List Str) :=
    match merkle_tree with
    | some mt => some mt
    | none =>
      match hashes with
      | some hs => some (hs.map (fun h => bh2u h.reverse))
      | none => none
  match pmtOpt with
  | none => false
  | some pmt =>
    match pmt with
    | [] => false
    | p0 :: rest =>
      if p0 ≠ cbtx.txid then false
      else
        let merkle_root_calculated :=
          if 0 < rest.length then hash_merkle_root rest cbtx.txid 0
          else cbtx.txid
        match read_header cbtx.extra_payload.height with
        | none => false
        | some header_mr => header_mr == merkle_root_calculated

/-! The diff engine (`on_mnlistdiff` / `on_protx_diff` and their inner
`process_*` functions). -/

/-- Key under which an SML entry is stored: `bh2u(proRegTxHash[::-1])`. -/
def smlKey (e : DashSMLEntry) : Str :=
  bh2u e.proRegTxHash.reverse

/-- Decimal rendering of a small natural (for the `:{llmqType}` key part). -/
def natToDecStr (n : Nat) : Str :=
  (Nat.toDigits 10 n).map Char.toNat

/-- Key under which a quorum commitment is stored:
`f'{bh2u(quorumHash[::-1])}:{llmqType}'`. -/
def quorumKey (quorumHash : Bytes) (llmqType : Nat) : Str :=
  bh2u quorumHash.reverse ++ 58 :: natToDecStr llmqType

/-- Deletions then insertions of SML entries, on copies of the masternode
map and its content-hash map (`process_mnlistdiff` lines 596-609); returns
the new maps and the hex-encoded deleted-hash list. -/
def applySMLDiff (pm : AL DashSMLEntry) (sh : AL Bytes)
    (deletedMNs : List Bytes) (mnList : List DashSMLEntry) :
    AL DashSMLEntry × AL Bytes × List Str :=
  let deleted_mns := deletedMNs.map (fun h => bh2u h.reverse)
  let p1 := deleted_mns.foldl (fun p k => (alErase p.1 k, alErase p.2 k)) (pm, sh)
  let p2 := mnList.foldl
    (fun p e => (alInsert p.1 (smlKey e) e, alInsert p.2 (smlKey e) (sha256d e.ser)))
    p1
  (p2.1, p2.2, deleted_mns)

/-- Deletions then insertions of quorum commitments, on copies of the
quorum map and its content-hash map (`process_mnlistdiff` lines 612-625). -/
def applyQuorumDiff (qm : AL DashQFCommitMsg) (lh : AL Bytes)
    (deletedQuorums : List (Bytes × Nat)) (newQuorums : List DashQFCommitMsg) :
    AL DashQFCommitMsg × AL Bytes :=
  let p1 := deletedQuorums.foldl
    (fun p dq => (alErase p.1 (quorumKey dq.1 dq.2), alErase p.2 (quorumKey dq.1 dq.2)))
    (qm, lh)
  newQuorums.foldl
    (fun p nq => (alInsert p.1 (quorumKey nq.quorumHash nq.llmqType) nq,
                  alInsert p.2 (quorumKey nq.quorumHash nq.llmqType) (sha256d nq.ser)))
    p1

/-- The SML hashes an mnlistdiff commits:
`map(lambda x: bh2u(x.proRegTxHash[::-1]), diff.mnList)`. -/
def diffHashesOf (mnList : List DashSMLEntry) : List Str :=
  mnList.map smlKey

/-- `process_mnlistdiff` (the worker inside `MNList.on_mnlistdiff`).
All verification failures return the state unchanged together with `false`;
the new maps and heights are committed only after every check passed.
`load_mns` is `self.load_mns`; `local_height` is the network's local chain
height (so `llmq_tip local_height` is `self.llmq_tip`); `read_header` reads
a block header's merkle root. -/
def process_mnlistdiff (st : MNState) (load_mns : Bool)
    (base_height height local_height : Int) (read_header : Int → Option Str)
    (diff : MNListDiffMsg) : MNState × Bool :=
  let cbtx := diff.cbTx
  if cbtx.tx_type ≠ 0 then
    if cbtx.tx_type ≠ 5 then (st, false)
    else if 2 < cbtx.extra_payload.version then (st, false)
    else
      let cbtx_extra := cbtx.extra_payload
      let mnres :=
        if load_mns = true ∧ base_height = st.protx_height then
          applySMLDiff st.protx_mns st.sml_hashes diff.deletedMNs diff.mnList
        else (st.protx_mns, st.sml_hashes, [])
      let protx_new := mnres.1
      let sml_hashes_new := mnres.2.1
      let deleted_mns := mnres.2.2
      let qres :=
        if base_height = st.llmq_height ∧ height ≤ llmq_tip local_height then
          applyQuorumDiff st.quorums st.llmq_hashes diff.deletedQuorums diff.newQuorums
        else (st.quorums, st.llmq_hashes)
      let quorums_new := qres.1
      let llmq_hashes_new := qres.2
      if (load_mns = true ∧ base_height = st.protx_height) ∧
          check_sml_merkle_root sml_hashes_new cbtx_extra = false then (st, false)
      else if (base_height = st.llmq_height ∧ height ≤ llmq_tip local_height ∧
          1 < cbtx_extra.version) ∧
          check_llmq_merkle_root llmq_hashes_new cbtx_extra = false then (st, false)
      else if check_cbtx_merkle_root read_header cbtx none (some diff.merkleHashes)
          = false then (st, false)
      else
        let cbtx_height := cbtx_extra.height
        let st1 :=
          if load_mns = true ∧ base_height = st.protx_height then
            { st with
              protx_height := cbtx_height
              protx_mns := protx_new
              sml_hashes := sml_hashes_new
              protx_state := DIP3_ENABLED
              diff_deleted_mns := deleted_mns
              diff_hashes := diffHashesOf diff.mnList
              recent_list := { st.recent_list with
                protx_height := cbtx_height
                protx_mns := protx_new
                sml_hashes := sml_hashes_new } }
          else { st with diff_deleted_mns := [], diff_hashes := [] }
        let st2 :=
          if base_height = st.llmq_height ∧ height ≤ llmq_tip local_height then
            { st1 with
              llmq_height := cbtx_height
              quorums := quorums_new
              llmq_hashes := llmq_hashes_new
              recent_list := { st1.recent_list with
                llmq_height := cbtx_height
                quorums := quorums_new
                llmq_hashes := llmq_hashes_new } }
          else st1
        (st2, true)
  else
    -- classical coinbase tx (disabled dip3)
    let st1 :=
      if load_mns = true then
        { st with
          protx_height := height
          protx_state := DIP3_DISABLED
          recent_list := { st.recent_list with protx_height := height } }
      else st
    ({ st1 with
        diff_deleted_mns := []
        diff_hashes := []
        llmq_height := height
        recent_list := { st1.recent_list with llmq_height := height } }, true)

/-- The post-processing `on_mnlistdiff`/`on_protx_diff` perform after the
worker reports success: drop the info entries of deleted and re-added
masternodes, and (inside `notify('mn-list-diff-updated')`) reset the diff
lists. -/
def diffPostProcess (st : MNState) : MNState :=
  let info1 :=
    if st.diff_deleted_mns ≠ [] then
      st.diff_deleted_mns.foldl (fun m h => alErase m h) st.protx_info
    else st.protx_info
  let info2 :=
    if st.diff_hashes ≠ [] then
      info1.filter (fun p => ¬ st.diff_hashes.contains p.1)
    else info1
  { st with protx_info := info2, diff_deleted_mns := [], diff_hashes := [] }

/-- `MNList.on_mnlistdiff`: drop unsolicited or parameter-mismatched
responses and responses whose `base_height` matches neither stored height,
drop errors, then run the worker; only a successful worker run is followed
by info pruning, persisting and notification.  `pending` is the single
element of the `sent_getmnlistd` queue (`none` when the queue is empty);
`err` tells whether the response carried an error. -/
def on_mnlistdiff (st : MNState) (pending : Option (Int × Int))
    (base_height height : Int) (err : Bool) (diff : MNListDiffMsg)
    (load_mns : Bool) (local_height : Int) (read_header : Int → Option Str) :
    MNState :=
  match pending with
  | none => st
  | some (q_base_height, q_height) =>
    if q_base_height ≠ base_height ∨ q_height ≠ height then st
    else if base_height ≠ st.llmq_height ∧ base_height ≠ st.protx_height then st
    else if err then st
    else
      let r := process_mnlistdiff st load_mns base_height height local_height
        read_header diff
      if r.2 then diffPostProcess r.1 else r.1

/-- `process_protx_diff` (the worker inside `MNList.on_protx_diff`). -/
def process_protx_diff (st : MNState) (height : Int)
    (read_header : Int → Option Str) (diff : ProtxDiff) : MNState × Bool :=
  let cbtx := diff.cbTx
  if cbtx.tx_type ≠ 0 then
    if cbtx.tx_type ≠ 5 then (st, false)
    else if 2 < cbtx.extra_payload.version then (st, false)
    else
      let cbtx_extra := cbtx.extra_payload
      let deleted_mns := diff.deletedMNs
      let p1 := deleted_mns.foldl (fun p k => (alErase p.1 k, alErase p.2 k))
        (st.protx_mns, st.sml_hashes)
      let p2 := diff.mnList.foldl
        (fun p m => (alInsert p.1 m.1 m.2, alInsert p.2 m.1 (sha256d m.2.ser)))
        p1
      let protx_new := p2.1
      let sml_hashes_new := p2.2
      if check_sml_merkle_root sml_hashes_new cbtx_extra = false then (st, false)
      else if check_cbtx_merkle_root read_header cbtx diff.cbTxMerkleTree none
          = false then (st, false)
      else
        let cbtx_height := cbtx_extra.height
        ({ st with
            protx_mns := protx_new
            sml_hashes := sml_hashes_new
            protx_height := cbtx_height
            protx_state := DIP3_ENABLED
            diff_deleted_mns := deleted_mns
            diff_hashes := diff.mnList.map (fun m => m.1)
            recent_list := { st.recent_list with
              protx_mns := protx_new
              sml_hashes := sml_hashes_new
              protx_height := cbtx_height } }, true)
  else
    -- classical coinbase tx (disabled dip3)
    ({ st with
        protx_height := height
        protx_state := DIP3_DISABLED
        diff_deleted_mns := []
        diff_hashes := []
        recent_list := { st.recent_list with protx_height := height } }, true)

/-- `MNList.on_protx_diff`: like `on_mnlistdiff`, except the base-height
guard compares only against `protx_height` and additionally lets a
`base_height` of 1 through when the stored `protx_height` is 0 (the protx
diff protocol's first allowed height is 1). -/
def on_protx_diff (st : MNState) (pending : Option (Int × Int))
    (base_height height : Int) (err : Bool) (diff : ProtxDiff)
    (read_header : Int → Option Str) : MNState :=
  match pending with
  | none => st
  | some (q_base_height, q_height) =>
    if q_base_height ≠ base_height ∨ q_height ≠ height then st
    else if base_height ≠ st.protx_height ∧
        (st.protx_height ≠ 0 ∨ base_height ≠ 1) then st
    else if err then st
    else
      let r := process_protx_diff st height read_header diff
      if r.2 then diffPostProcess r.1 else r.1

/-! Readiness predicates, responsible-quorum selection, reset and
snapshot loading. -/

/-- `MNList.protx_ready`.  `net_present` is `self.network is not None`;
`act_h` is `constants.net.DIP3_ACTIVATION_HEIGHT` (a deployment constant
outside the given sources); `server_height` is
`self.network.get_server_height()`. -/
def protx_ready (load_mns net_present : Bool) (act_h server_height : Int)
    (protx_height : Int) (protx_mns : AL DashSMLEntry) : Bool :=
  if load_mns = false ∨ net_present = false then false
  else if server_height ≤ act_h then false
  else if 24 < server_height - protx_height then false
  else if protx_mns.length = 0 then false
  else true

/-- `MNList.llmq_ready`: analogous, gated on `dash_net_enabled`, with the
threshold `24 + LLMQ_OFFSET` on `llmq_height` and a non-empty quorum map. -/
def llmq_ready (dash_net_enabled net_present : Bool) (act_h server_height : Int)
    (llmq_height : Int) (quorums : AL DashQFCommitMsg) : Bool :=
  if dash_net_enabled = false ∨ net_present = false then false
  else if server_height ≤ act_h then false
  else if 24 + LLMQ_OFFSET < server_height - llmq_height then false
  else if quorums.length = 0 then false
  else true

/-- The sort hash of `calc_responsible_quorum`:
`sha256d(pack('B', llmqType) + quorumHash + request_id)`. -/
def quorumSortHash (q : DashQFCommitMsg) (request_id : Bytes) : Bytes :=
  sha256d (q.llmqType % 256 :: q.quorumHash ++ request_id)

/-- `MNList.calc_responsible_quorum`: among the stored commitments of the
requested type, pick the one whose sort hash is smallest (Python sorts the
`(sorthash, q)` pairs with key `x[0]` and takes the head). -/
def calc_responsible_quorum (quorums : AL DashQFCommitMsg) (llmqType : Nat)
    (request_id : Bytes) : Option DashQFCommitMsg :=
  let res := ((quorums.map (fun p => p.2)).filter
      (fun q => q.llmqType == llmqType)).map
    (fun q => (quorumSortHash q request_id, q))
  let res := sortBy (fun a b => bytesLe a.1 b.1) res
  match res with
  | [] => none
  | r :: _ => some r.2

/-- What `MNList.reset` produces: the new engine state, the payloads handed
to `_save_recent_list` and `_save_protx_info(force=True)`, and whether a
fresh diff request was scheduled (`reset` always schedules one, via
`dash_net.getmnlistd()` when dash_net is enabled, else via
`network.request_protx_diff()`). -/
structure ResetResult where
  state : MNState
  saved_recent : RecentList
  saved_protx_info : AL Str
  requested : Bool
deriving DecidableEq

/-- `MNList.reset`: heights back to 1, every map cleared, cleared state
persisted to both snapshot files, state flag back to unknown, and a new
diff request issued from scratch. -/
def MNList_reset (st : MNState) (dash_net_enabled : Bool) : ResetResult :=
  let cleared : RecentList :=
    { protx_height := 1, llmq_height := 1, protx_mns := [], sml_hashes := [],
      quorums := [], llmq_hashes := [] }
  let st1 : MNState :=
    { st with
      protx_height := 1
      llmq_height := 1
      protx_mns := []
      sml_hashes := []
      quorums := []
      llmq_hashes := []
      protx_info := []
      mns_outpoints := []
      recent_list := cleared
      protx_state := DIP3_UNKNOWN
      diff_deleted_mns := []
      diff_hashes := [] }
  { state := st1
    saved_recent := cleared
    saved_protx_info := []
    requested := (if dash_net_enabled then true else true) }

/-- `DEFAULT_MN_LIST`, as `_read_recent_list` falls back to it (note its
heights are 0, not 1). -/
def DEFAULT_MN_LIST : RecentList :=
  { protx_height := 0, llmq_height := 0, protx_mns := [], sml_hashes := [],
    quorums := [], llmq_hashes := [] }

/-- The raw key-value content of the persisted recent-list blob before the
hex fields are decoded (what `json.loads` hands back). -/
structure RawRecentList where
  protx_height : Int
  llmq_height : Int
  protx_mns : AL Str
  sml_hashes : AL Str
  quorums : AL Str
  llmq_hashes : AL Str
deriving DecidableEq

/-- Modelled from the spec: `DashSMLEntry.from_hex` of
`electrum_dash.dash_msg` is not among the given sources; the persisted blob
stores entries hex-encoded, so decoding parses the hex (raising — here
failing — on malformed input) and yields an entry whose serialization is
the decoded bytes. -/
def DashSMLEntry.from_hex (s : Str) : Option DashSMLEntry :=
  (bfhChecked s).map (fun b => { proRegTxHash := b.take 32, ser := b })

/-- Modelled from the spec: `DashQFCommitMsg.from_hex`, as for SML
entries. -/
def DashQFCommitMsg.from_hex (s : Str) : Option DashQFCommitMsg :=
  (bfhChecked s).map
    (fun b => { llmqType := b.headD 0, quorumHash := (b.drop 1).take 32, ser := b })

/-- Decode every value of a raw dict, failing when any single value fails
(Python raises out of the decoding loop). -/
def decodeAL {V : Type} (f : Str → Option V) : AL Str → Option (AL V)
  | [] => some []
  | (k, v) :: t =>
    match f v, decodeAL f t with
    | some v', some t' => some ((k, v') :: t')
    | _, _ => none

/-- `MNList._read_recent_list`: without a config path the default list is
returned; a read/parse failure (`file_data = .error`) or any hex-decoding
failure inside the `try` block also falls back to the default list; the
operation never propagates a failure (it is total).  `has_path` is
`bool(self.config.path)` and `file_data` the outcome of reading and
json-decoding the gzip blob. -/
def read_recent_list (has_path : Bool) (file_data : Except Str RawRecentList) :
    RecentList :=
  if has_path = false then DEFAULT_MN_LIST
  else
    match file_data with
    | .error _ => DEFAULT_MN_LIST
    | .ok raw =>
      match decodeAL DashSMLEntry.from_hex raw.protx_mns,
          decodeAL (fun v => (bfhChecked v).map List.reverse) raw.sml_hashes,
          decodeAL DashQFCommitMsg.from_hex raw.quorums,
          decodeAL (fun v => (bfhChecked v).map List.reverse) raw.llmq_hashes with
      | some pm, some sh, some qs, some lh =>
        { protx_height := raw.protx_height, llmq_height := raw.llmq_height,
          protx_mns := pm, sml_hashes := sh, quorums := qs, llmq_hashes := lh }
      | _, _, _, _ => DEFAULT_MN_LIST

/-- `MNList._read_protx_info`: without a config path the empty map is
returned; a read/parse failure falls back to the empty map; total. -/
def read_protx_info (has_path : Bool) (file_data : Except Str (AL Str)) :
    AL Str :=
  if has_path = false then []
  else
    match file_data with
    | .error _ => []
    | .ok m => m

/-! Concrete instances used by the witnesses and counterexamples. -/

/-- A concrete quorum map used to witness C7: two quorums of type 1 and one
of type 2. -/
def c7exampleQuorums : AL DashQFCommitMsg :=
  [([97], { llmqType := 1, quorumHash := [10], ser := [1] }),
   ([98], { llmqType := 1, quorumHash := [20], ser := [2] }),
   ([99], { llmqType := 2, quorumHash := [30], ser := [3] })]

/-- A concrete malformed raw snapshot used to witness C8: the single
`sml_hashes` value is the non-hex string "g". -/
def c8badRaw : RawRecentList :=
  { protx_height := 7, llmq_height := 7, protx_mns := [],
    sml_hashes := [([107], [103])], quorums := [], llmq_hashes := [] }

/-- An empty engine state used by the concrete witnesses: fresh heights 0,
everything empty, DIP3 state unknown. -/
def mnState0 : MNState :=
  { protx_height := 0, llmq_height := 0, protx_mns := [], sml_hashes := [],
    quorums := [], llmq_hashes := [], protx_info := [], mns_outpoints := [],
    protx_state := DIP3_UNKNOWN, diff_deleted_mns := [], diff_hashes := [],
    recent_list :=
      { protx_height := 0, llmq_height := 0, protx_mns := [],
        sml_hashes := [], quorums := [], llmq_hashes := [] } }

/-- A diff whose commitment transaction has the unsupported special type 3. -/
def badTypeDiff : MNListDiffMsg :=
  { cbTx :=
      { tx_type := 3, version := 1, txid := [],
        extra_payload :=
          { version := 1, height := 5, merkleRootMNList := [],
            merkleRootQuorums := [] } },
    deletedMNs := [], mnList := [], deletedQuorums := [], newQuorums := [],
    merkleHashes := [] }

/-- A protx diff whose commitment transaction has the unsupported special
type 3. -/
def badTypeProtxDiff : ProtxDiff :=
  { cbTx :=
      { tx_type := 3, version := 1, txid := [],
        extra_payload :=
          { version := 1, height := 5, merkleRootMNList := [],
            merkleRootQuorums := [] } },
    deletedMNs := [], mnList := [], cbTxMerkleTree := none }

/-- A protx diff whose commitment transaction is a classical coinbase. -/
def classicalProtxDiff : ProtxDiff :=
  { cbTx :=
      { tx_type := 0, version := 1, txid := [],
        extra_payload :=
          { version := 1, height := 5, merkleRootMNList := [],
            merkleRootQuorums := [] } },
    deletedMNs := [], mnList := [], cbTxMerkleTree := none }

/-- An mnlistdiff whose commitment transaction is a classical coinbase. -/
def classicalDiff : MNListDiffMsg :=
  { cbTx :=
      { tx_type := 0, version := 1, txid := [],
        extra_payload :=
          { version := 1, height := 5, merkleRootMNList := [],
            merkleRootQuorums := [] } },
    deletedMNs := [], mnList := [], deletedQuorums := [], newQuorums := [],
    merkleHashes := [] }

/-- Replace the `merkleRootQuorums` field inside a diff's commitment
transaction (used to state that a version-1 commitment is processed without
consulting that root). -/
def setMRQ (diff : MNListDiffMsg) (mrq : Bytes) : MNListDiffMsg :=
  { diff with
      cbTx :=
        { diff.cbTx with
            extra_payload :=
              { diff.cbTx.extra_payload with merkleRootQuorums := mrq } } }

/-- A state whose stored heights are 10 (used to witness C10). -/
def c10state : MNState :=
  { protx_height := 10, llmq_height := 10, protx_mns := [], sml_hashes := [],
    quorums := [], llmq_hashes := [], protx_info := [], mns_outpoints := [],
    protx_state := DIP3_UNKNOWN, diff_deleted_mns := [], diff_hashes := [],
    recent_list :=
      { protx_height := 10, llmq_height := 10, protx_mns := [],
        sml_hashes := [], quorums := [], llmq_hashes := [] } }

/-- A version-1 commitment diff adding one quorum, whose coinbase merkle
check passes against a single-hash tree (the zero hash) and a header oracle
returning that same root. -/
def c10diff : MNListDiffMsg :=
  { cbTx :=
      { tx_type := 5, version := 3, txid := List.replicate 64 48,
        extra_payload :=
          { version := 1, height := 12,
            merkleRootMNList := [],
            merkleRootQuorums := [9, 9] } },
    deletedMNs := [], mnList := [], deletedQuorums := [],
    newQuorums :=
      [{ llmqType := 1, quorumHash := List.replicate 32 7,
         ser := [1, 2, 3] }],
    merkleHashes := [List.replicate 32 0] }

/-! Helper lemmas. -/

theorem pairUp_length (l : List Bytes) : (pairUp l).length = l.length / 2 := by
  simp [pairUp]

theorem merkleLoopFuel_congr :
    ∀ (n m : Nat) (hs : List Bytes), hs.length ≤ n → hs.length ≤ m →
      merkleLoopFuel n hs = merkleLoopFuel m hs := by
  intro n
  induction n with
  | zero =>
    intro m hs hn _
    have h0 : hs = [] := List.length_eq_zero.mp (Nat.le_zero.mp hn)
    subst h0
    cases m with
    | zero => rfl
    | succ m => simp [merkleLoopFuel]
  | succ n ih =>
    intro m hs hn hm
    cases m with
    | zero =>
      have h0 : hs = [] := List.length_eq_zero.mp (Nat.le_zero.mp hm)
      subst h0
      simp [merkleLoopFuel]
    | succ m =>
      simp only [merkleLoopFuel]
      split_ifs with h1 h2
      · rfl
      · apply ih <;>
          (rw [pairUp_length]; simp only [List.length_append, List.length_cons,
            List.length_nil]; omega)
      · apply ih <;> (rw [pairUp_length]; omega)

theorem mem_insertLe {α : Type} (le : α → α → Bool) (x z : α) :
    ∀ l : List α, z ∈ insertLe le x l ↔ z = x ∨ z ∈ l := by
  intro l
  induction l with
  | nil => simp [insertLe]
  | cons y ys ih =>
    simp only [insertLe]
    by_cases h : le x y = true
    · rw [if_pos h]
      simp only [List.mem_cons]
    · rw [if_neg h]
      simp only [List.mem_cons, ih]
      tauto

theorem insertLe_perm {α : Type} (le : α → α → Bool) (x : α) :
    ∀ l : List α, (insertLe le x l).Perm (x :: l) := by
  intro l
  induction l with
  | nil => simp [insertLe]
  | cons y ys ih =>
    simp only [insertLe]
    by_cases h : le x y = true
    · rw [if_pos h]
    · rw [if_neg h]
      exact (ih.cons y).trans (List.Perm.swap x y ys)

theorem sortBy_perm {α : Type} (le : α → α → Bool) :
    ∀ l : List α, (sortBy le l).Perm l := by
  intro l
  induction l with
  | nil => simp [sortBy]
  | cons x xs ih =>
    simp only [sortBy]
    exact (insertLe_perm le x (sortBy le xs)).trans (ih.cons x)

theorem insertLe_pairwise {α : Type} (le : α → α → Bool)
    (htot : ∀ a b, le a b = true ∨ le b a = true)
    (htrans : ∀ a b c, le a b = true → le b c = true → le a c = true) (x : α) :
    ∀ l : List α, l.Pairwise (fun a b => le a b = true) →
      (insertLe le x l).Pairwise (fun a b => le a b = true) := by
  intro l
  induction l with
  | nil => intro _; simp [insertLe]
  | cons y ys ih =>
    intro hp
    rw [List.pairwise_cons] at hp
    obtain ⟨hy, hys⟩ := hp
    simp only [insertLe]
    by_cases h : le x y = true
    · rw [if_pos h]
      rw [List.pairwise_cons]
      refine ⟨?_, List.Pairwise.cons hy hys⟩
      intro z hz
      rcases List.mem_cons.mp hz with h_eq | hz'
      · subst h_eq
        exact h
      · exact htrans x y z h (hy z hz')
    · rw [if_neg h]
      rw [List.pairwise_cons]
      refine ⟨?_, ih hys⟩
      intro z hz
      rcases (mem_insertLe le x z ys).mp hz with h_eq | hz'
      · rw [h_eq]
        rcases htot x y with h' | h'
        · exact absurd h' h
        · exact h'
      · exact hy z hz'

theorem sortBy_pairwise {α : Type} (le : α → α → Bool)
    (htot : ∀ a b, le a b = true ∨ le b a = true)
    (htrans : ∀ a b c, le a b = true → le b c = true → le a c = true) :
    ∀ l : List α, (sortBy le l).Pairwise (fun a b => le a b = true) := by
  intro l
  induction l with
  | nil => simp [sortBy]
  | cons x xs ih =>
    simp only [sortBy]
    exact insertLe_pairwise le htot htrans x (sortBy le xs) ih

theorem sortBy_head_min {α : Type} (le : α → α → Bool)
    (hrefl : ∀ a, le a a = true)
    (htot : ∀ a b, le a b = true ∨ le b a = true)
    (htrans : ∀ a b c, le a b = true → le b c = true → le a c = true)
    (l : List α) (x : α) (t : List α) (h : sortBy le l = x :: t) :
    ∀ z ∈ l, le x z = true := by
  intro z hz
  have hz' : z ∈ sortBy le l := (sortBy_perm le l).mem_iff.mpr hz
  rw [h] at hz'
  rcases List.mem_cons.mp hz' with rfl | hz''
  · exact hrefl z
  · have hp := sortBy_pairwise le htot htrans l
    rw [h, List.pairwise_cons] at hp
    exact hp.1 z hz''

theorem bytesLe_refl : ∀ b : Bytes, bytesLe b b = true := by
  intro b
  induction b with
  | nil => rfl
  | cons a as ih => simp [bytesLe, ih]

theorem bytesLe_total : ∀ a b : Bytes, bytesLe a b = true ∨ bytesLe b a = true := by
  intro a
  induction a with
  | nil => intro b; left; rfl
  | cons x xs ih =>
    intro b
    cases b with
    | nil => right; rfl
    | cons y ys =>
      simp only [bytesLe]
      rcases Nat.lt_trichotomy x y with h | h | h
      · left; simp [h]
      · subst h
        simp only [Nat.lt_irrefl, if_false]
        exact ih ys
      · right; simp [h, Nat.lt_asymm h]

theorem bytesLe_trans :
    ∀ a b c : Bytes, bytesLe a b = true → bytesLe b c = true →
      bytesLe a c = true := by
  intro a
  induction a with
  | nil => intro b c _ _; rfl
  | cons x xs ih =>
    intro b c hab hbc
    cases b with
    | nil => simp [bytesLe] at hab
    | cons y ys =>
      cases c with
      | nil => simp [bytesLe] at hbc
      | cons z zs =>
        simp only [bytesLe] at hab hbc ⊢
        split_ifs at hab hbc ⊢ <;>
          first
            | rfl
            | omega
            | (exact ih ys zs hab hbc)

/-! Claim C3. -/

/-- C3 counterexample: the claim asserts that the root of every odd-length
list equals the root of that list with its last element duplicated, but for
a one-element list `calc_merkle_root` exits before any pairing, so the root
of `[h]` differs from the root of `[h, h]` (shown here at the zero-filled
32-byte leaf). -/
theorem c3_counterexample :
    calc_merkle_root [List.replicate 32 0] ≠
      calc_merkle_root [List.replicate 32 0, List.replicate 32 0] := by
  decide

/-- C3 (amended): `calc_merkle_root` of the empty list is the root of the
single zero-filled 32-byte placeholder leaf, of a one-element list `[h]` it
is `h` byte-reversed and hex-encoded, and the root of an odd-length list of
length at least three equals the root of that list with its last element
manually duplicated (for a one-element list the loop exits at once, so that
equation does not extend to length one). -/
theorem c3_calc_merkle_root_spec (h : Bytes) (l : List Bytes)
    (hodd : l.length % 2 = 1) (hlen : 3 ≤ l.length) :
    calc_merkle_root [] = calc_merkle_root [List.replicate 32 0] ∧
    calc_merkle_root [h] = hfu h.reverse ∧
    calc_merkle_root l = calc_merkle_root (l ++ [l.getLastD []]) := by
  refine ⟨rfl, rfl, ?_⟩
  obtain ⟨k, hk⟩ : ∃ k, l.length = k + 3 := ⟨l.length - 3, by omega⟩
  have hodd' : (k + 3) % 2 = 1 := hk ▸ hodd
  have hlen2 : (l ++ [l.getLastD []]).length = k + 4 := by
    simp [List.length_append, hk]
  have h0 : ¬ l.length = 0 := by omega
  have h0' : ¬ (l ++ [l.getLastD []]).length = 0 := by
    rw [hlen2]; omega
  simp only [calc_merkle_root, merkleLoop, if_neg h0, if_neg h0']
  suffices hs : merkleLoopFuel l.length l =
      merkleLoopFuel (l ++ [l.getLastD []]).length (l ++ [l.getLastD []]) by
    rw [hs]
  rw [hk, hlen2]
  have hlhs : merkleLoopFuel (k + 3) l =
      merkleLoopFuel (k + 2) (pairUp (l ++ [l.getLastD []])) := by
    show merkleLoopFuel ((k + 2) + 1) l = _
    simp only [merkleLoopFuel]
    rw [if_neg (by omega : ¬ l.length ≤ 1), if_pos hodd]
  have hrhs : merkleLoopFuel (k + 4) (l ++ [l.getLastD []]) =
      merkleLoopFuel (k + 3) (pairUp (l ++ [l.getLastD []])) := by
    show merkleLoopFuel ((k + 3) + 1) _ = _
    simp only [merkleLoopFuel]
    rw [if_neg (by rw [hlen2]; omega : ¬ (l ++ [l.getLastD []]).length ≤ 1),
        if_neg (by rw [hlen2]; omega : ¬ (l ++ [l.getLastD []]).length % 2 = 1)]
  rw [hlhs, hrhs]
  apply merkleLoopFuel_congr
  · rw [pairUp_length, hlen2]; omega
  · rw [pairUp_length, hlen2]; omega

/-- C3 witness: the amended properties at concrete inputs (a concrete hash
for the singleton case and a concrete three-element list for the
odd-duplication case). -/
theorem c3_witness :
    calc_merkle_root [] = calc_merkle_root [List.replicate 32 0] ∧
    calc_merkle_root [[7, 8]] = hfu [7, 8].reverse ∧
    calc_merkle_root [[1], [2], [3]] =
      calc_merkle_root ([[1], [2], [3]] ++ [[[1], [2], [3]].getLastD []]) :=
  c3_calc_merkle_root_spec [7, 8] [[1], [2], [3]] (by decide) (by decide)

/-! Claim C4. -/

/-- C4 counterexample: the claim says the SML entries are sorted in
descending order of the byte-reversed key, but `sorted` is ascending: with
keys "01" and "00" (whose byte-reversed forms compare as `[1] > [0]`), the
entry with the smaller reversed key comes first. -/
theorem c4_counterexample :
    sortSmlItems [([48, 49], [5]), ([48, 48], [6])] =
      [([48, 48], [6]), ([48, 49], [5])] ∧
    bytesLe (bfh [48, 49]).reverse (bfh [48, 48]).reverse = false := by
  decide

/-- C4 (amended): the SML merkle root is computed over entry hashes sorted
in ascending lexicographic order of `bfh(key)[::-1]` (the byte-reversed
little-endian string form of the key; stable, so this is the full
tie-break), while the quorum merkle root is computed over the raw content
hashes sorted ascending with no key involved; each verification succeeds
exactly when the computed root equals the root embedded in the commitment
transaction's extra payload. -/
theorem c4_merkle_sort_spec (d : AL Bytes) (ce : CbTxExtra) :
    (check_sml_merkle_root d ce = true ↔
      calc_merkle_root ((sortSmlItems d).map (fun p => p.2)) =
        hfu ce.merkleRootMNList.reverse) ∧
    (sortSmlItems d).Perm d ∧
    (sortSmlItems d).Pairwise
      (fun a b => bytesLe (bfh a.1).reverse (bfh b.1).reverse = true) ∧
    (check_llmq_merkle_root d ce = true ↔
      calc_merkle_root (sortBy bytesLe (d.map (fun p => p.2))) =
        hfu ce.merkleRootQuorums.reverse) ∧
    (sortBy bytesLe (d.map (fun p => p.2))).Perm (d.map (fun p => p.2)) ∧
    (sortBy bytesLe (d.map (fun p => p.2))).Pairwise
      (fun a b => bytesLe a b = true) := by
  refine ⟨?_, ?_, ?_, ?_, ?_, ?_⟩
  · simp [check_sml_merkle_root, beq_iff_eq]
  · exact sortBy_perm _ d
  · exact sortBy_pairwise _
      (fun a b => bytesLe_total (bfh a.1).reverse (bfh b.1).reverse)
      (fun a b c hab hbc =>
        bytesLe_trans (bfh a.1).reverse (bfh b.1).reverse (bfh c.1).reverse hab hbc)
      d
  · simp [check_llmq_merkle_root, beq_iff_eq]
  · exact sortBy_perm _ _
  · exact sortBy_pairwise _ bytesLe_total bytesLe_trans _

/-! Claim C6. -/

/-- C6: `protx_ready` holds exactly when masternode loading is enabled, a
network is present, the server height strictly exceeds the DIP3 activation
height, the server height is at most 24 above `protx_height`, and the
masternode map is non-empty; `llmq_ready` is the analogue gated on
`dash_net_enabled` with threshold `24 + LLMQ_OFFSET` on `llmq_height` and a
non-empty quorum map; below (or at) the activation height both are
false. -/
theorem c6_readiness (load_mns np dne : Bool) (act_h server_height ph lh : Int)
    (pm : AL DashSMLEntry) (qs : AL DashQFCommitMsg) :
    (protx_ready load_mns np act_h server_height ph pm = true ↔
      load_mns = true ∧ np = true ∧ act_h < server_height ∧
      server_height - ph ≤ 24 ∧ pm.length ≠ 0) ∧
    (llmq_ready dne np act_h server_height lh qs = true ↔
      dne = true ∧ np = true ∧ act_h < server_height ∧
      server_height - lh ≤ 24 + LLMQ_OFFSET ∧ qs.length ≠ 0) ∧
    (server_height ≤ act_h →
      protx_ready load_mns np act_h server_height ph pm = false ∧
      llmq_ready dne np act_h server_height lh qs = false) := by
  refine ⟨?_, ?_, ?_⟩
  · cases load_mns <;> cases np <;>
      (unfold protx_ready; split_ifs <;> simp_all) <;> (intro hc; omega)
  · cases dne <;> cases np <;>
      (unfold llmq_ready; split_ifs <;> simp_all) <;> (intro hc; omega)
  · intro hact
    constructor
    · cases load_mns <;> cases np <;>
        (unfold protx_ready; split_ifs <;> simp_all)
    · cases dne <;> cases np <;>
        (unfold llmq_ready; split_ifs <;> simp_all)

/-- C6 witness: the readiness characterization and the below-activation
falsity at concrete heights. -/
theorem c6_witness :
    (protx_ready true true 100 200 190 [([48], { proRegTxHash := [1], ser := [1] })]
      = true ↔
      true = true ∧ true = true ∧ (100 : Int) < 200 ∧ (200 : Int) - 190 ≤ 24 ∧
      [([48], ({ proRegTxHash := [1], ser := [1] } : DashSMLEntry))].length ≠ 0) ∧
    (protx_ready true true 300 200 190 [] = false ∧
      llmq_ready true true 300 200 190 [] = false) :=
  ⟨(c6_readiness true true true 100 200 190 190
      [([48], { proRegTxHash := [1], ser := [1] })] []).1,
   (c6_readiness true true true 300 200 190 190 [] []).2.2 (by decide)⟩

/-! Claim C7. -/

/-- C7: `calc_responsible_quorum` returns `none` exactly when no stored
quorum has the requested type, and any returned quorum is one of the
matching quorums whose sort hash
`sha256d(pack('B', llmqType) + quorumHash + request_id)` is lexicographically
least among all matching quorums (the function is deterministic: it is a
pure function of the quorum map and its inputs). -/
theorem c7_responsible_quorum (quorums : AL DashQFCommitMsg) (llmqType : Nat)
    (request_id : Bytes) :
    (calc_responsible_quorum quorums llmqType request_id = none ↔
      (quorums.map (fun p => p.2)).filter (fun q => q.llmqType == llmqType)
        = []) ∧
    ∀ q, calc_responsible_quorum quorums llmqType request_id = some q →
      q ∈ (quorums.map (fun p => p.2)).filter (fun q => q.llmqType == llmqType) ∧
      ∀ q' ∈ (quorums.map (fun p => p.2)).filter
          (fun q => q.llmqType == llmqType),
        bytesLe (quorumSortHash q request_id) (quorumSortHash q' request_id)
          = true := by
  have htot2 : ∀ a b : Bytes × DashQFCommitMsg,
      bytesLe a.1 b.1 = true ∨ bytesLe b.1 a.1 = true :=
    fun a b => bytesLe_total a.1 b.1
  have htrans2 : ∀ a b c : Bytes × DashQFCommitMsg,
      bytesLe a.1 b.1 = true → bytesLe b.1 c.1 = true → bytesLe a.1 c.1 = true :=
    fun a b c hab hbc => bytesLe_trans a.1 b.1 c.1 hab hbc
  have hrefl2 : ∀ a : Bytes × DashQFCommitMsg, bytesLe a.1 a.1 = true :=
    fun a => bytesLe_refl a.1
  rcases hsorted : sortBy (fun a b : Bytes × DashQFCommitMsg => bytesLe a.1 b.1)
      (((quorums.map (fun p => p.2)).filter
        (fun q => q.llmqType == llmqType)).map
        (fun q => (quorumSortHash q request_id, q))) with _ | ⟨r, t⟩
  · have hp := sortBy_perm
      (fun a b : Bytes × DashQFCommitMsg => bytesLe a.1 b.1)
      (((quorums.map (fun p => p.2)).filter
        (fun q => q.llmqType == llmqType)).map
        (fun q => (quorumSortHash q request_id, q)))
    rw [hsorted] at hp
    have hres := hp.symm.eq_nil
    have hflt : (quorums.map (fun p => p.2)).filter
        (fun q => q.llmqType == llmqType) = [] :=
      List.map_eq_nil_iff.mp hres
    refine ⟨?_, ?_⟩
    · exact ⟨fun _ => hflt, fun _ => by simp [calc_responsible_quorum, hsorted]⟩
    · intro q hq
      simp [calc_responsible_quorum, hsorted] at hq
  · have hperm := sortBy_perm
      (fun a b : Bytes × DashQFCommitMsg => bytesLe a.1 b.1)
      (((quorums.map (fun p => p.2)).filter
        (fun q => q.llmqType == llmqType)).map
        (fun q => (quorumSortHash q request_id, q)))
    rw [hsorted] at hperm
    have hrmem : r ∈ ((quorums.map (fun p => p.2)).filter
        (fun q => q.llmqType == llmqType)).map
        (fun q => (quorumSortHash q request_id, q)) :=
      hperm.mem_iff.mp (List.mem_cons_self r t)
    obtain ⟨a, ha, hra⟩ := List.mem_map.mp hrmem
    have hmin := sortBy_head_min
      (fun a b : Bytes × DashQFCommitMsg => bytesLe a.1 b.1)
      hrefl2 htot2 htrans2 _ r t hsorted
    refine ⟨?_, ?_⟩
    · constructor
      · intro hnone
        simp [calc_responsible_quorum, hsorted] at hnone
      · intro hflt
        rw [hflt] at ha
        cases ha
    · intro q hq
      have hsome : calc_responsible_quorum quorums llmqType request_id
          = some r.2 := by
        simp [calc_responsible_quorum, hsorted]
      rw [hsome] at hq
      have hq2 : r.2 = q := Option.some.inj hq
      have hr2 : r.2 = a := by rw [← hra]
      have hr1 : r.1 = quorumSortHash a request_id := by rw [← hra]
      have haq : a = q := by rw [hr2] at hq2; exact hq2
      constructor
      · exact haq ▸ ha
      · intro q' hq'
        have hz : (quorumSortHash q' request_id, q') ∈
            ((quorums.map (fun p => p.2)).filter
              (fun q => q.llmqType == llmqType)).map
              (fun q => (quorumSortHash q request_id, q)) :=
          List.mem_map.mpr ⟨q', hq', rfl⟩
        have hm : bytesLe r.1 (quorumSortHash q' request_id) = true := hmin _ hz
        rw [hr1, haq] at hm
        exact hm

/-- C7 witness: on the concrete quorum map the returned quorum is a
matching one with the least sort hash. -/
theorem c7_witness :
    ((calc_responsible_quorum c7exampleQuorums 1 [5]).getD
        { llmqType := 0, quorumHash := [], ser := [] }) ∈
      (c7exampleQuorums.map (fun p => p.2)).filter (fun q => q.llmqType == 1) ∧
    ∀ q' ∈ (c7exampleQuorums.map (fun p => p.2)).filter
        (fun q => q.llmqType == 1),
      bytesLe
        (quorumSortHash ((calc_responsible_quorum c7exampleQuorums 1 [5]).getD
          { llmqType := 0, quorumHash := [], ser := [] }) [5])
        (quorumSortHash q' [5]) = true :=
  (c7_responsible_quorum c7exampleQuorums 1 [5]).2
    ((calc_responsible_quorum c7exampleQuorums 1 [5]).getD
      { llmqType := 0, quorumHash := [], ser := [] })
    (by decide)

/-! Claim C9. -/

/-- C9: `reset` sets both heights to 1, clears the masternode map, quorum
map, both content-hash maps, the protx-info map and the outpoint
back-mapping, hands the cleared state to both snapshot-file save routines,
and schedules a new diff request from scratch. -/
theorem c9_reset (st : MNState) (dash_net_enabled : Bool) :
    (MNList_reset st dash_net_enabled).state.protx_height = 1 ∧
    (MNList_reset st dash_net_enabled).state.llmq_height = 1 ∧
    (MNList_reset st dash_net_enabled).state.protx_mns = [] ∧
    (MNList_reset st dash_net_enabled).state.sml_hashes = [] ∧
    (MNList_reset st dash_net_enabled).state.quorums = [] ∧
    (MNList_reset st dash_net_enabled).state.llmq_hashes = [] ∧
    (MNList_reset st dash_net_enabled).state.protx_info = [] ∧
    (MNList_reset st dash_net_enabled).state.mns_outpoints = [] ∧
    (MNList_reset st dash_net_enabled).state.recent_list =
      { protx_height := 1, llmq_height := 1, protx_mns := [], sml_hashes := [],
        quorums := [], llmq_hashes := [] } ∧
    (MNList_reset st dash_net_enabled).saved_recent =
      (MNList_reset st dash_net_enabled).state.recent_list ∧
    (MNList_reset st dash_net_enabled).saved_protx_info = [] ∧
    (MNList_reset st dash_net_enabled).requested = true := by
  simp [MNList_reset]

/-! Claim C8. -/

/-- C8: loading either persisted snapshot falls back to the default (resp.
empty) snapshot on every failure — no config path, unreadable or
unparsable file, or malformed hex content — and, the loaders being total
functions into snapshots, no failure propagates to the caller. -/
theorem c8_load_fallback (d1 : Except Str RawRecentList) (exc : Str)
    (raw : RawRecentList) (d2 : Except Str (AL Str))
    (hraw : decodeAL DashSMLEntry.from_hex raw.protx_mns = none ∨
      decodeAL (fun v => (bfhChecked v).map List.reverse) raw.sml_hashes = none ∨
      decodeAL DashQFCommitMsg.from_hex raw.quorums = none ∨
      decodeAL (fun v => (bfhChecked v).map List.reverse) raw.llmq_hashes
        = none) :
    read_recent_list false d1 = DEFAULT_MN_LIST ∧
    read_recent_list true (.error exc) = DEFAULT_MN_LIST ∧
    read_recent_list true (.ok raw) = DEFAULT_MN_LIST ∧
    read_protx_info false d2 = [] ∧
    read_protx_info true (.error exc) = [] := by
  refine ⟨rfl, rfl, ?_, rfl, rfl⟩
  rcases hd1 : decodeAL DashSMLEntry.from_hex raw.protx_mns with _ | pm <;>
  rcases hd2 : decodeAL (fun v => (bfhChecked v).map List.reverse)
      raw.sml_hashes with _ | sh <;>
  rcases hd3 : decodeAL DashQFCommitMsg.from_hex raw.quorums with _ | qs <;>
  rcases hd4 : decodeAL (fun v => (bfhChecked v).map List.reverse)
      raw.llmq_hashes with _ | lh <;>
    simp_all [read_recent_list]

/-- C8 witness: the fallbacks at concrete failing inputs. -/
theorem c8_witness :
    read_recent_list false (.ok c8badRaw) = DEFAULT_MN_LIST ∧
    read_recent_list true (.error [101]) = DEFAULT_MN_LIST ∧
    read_recent_list true (.ok c8badRaw) = DEFAULT_MN_LIST ∧
    read_protx_info false (.ok [([97], [98])]) = [] ∧
    read_protx_info true (.error [101]) = [] :=
  c8_load_fallback (.ok c8badRaw) [101] c8badRaw (.ok [([97], [98])])
    (Or.inr (Or.inl (by decide)))

/-! Claim C1. -/

/-- C1: both diff workers apply deletions then insertions to copies (see
`applySMLDiff`/`applyQuorumDiff` inside the definitions) and, whenever any
verification fails — unsupported commitment transaction type or version,
SML merkle-root mismatch, LLMQ merkle-root mismatch, or coinbase merkle
inclusion failure — they return the engine state exactly unchanged together
with `false` (being total functions into `MNState × Bool`, they signal
failure only by that result, never by raising); the new maps and heights
are committed only in the branch where every verification passed. -/
theorem c1_no_mutation_on_failure (st : MNState) (load_mns : Bool)
    (base_height height local_height : Int) (read_header : Int → Option Str)
    (diff : MNListDiffMsg) (pdiff : ProtxDiff) :
    ((process_mnlistdiff st load_mns base_height height local_height
        read_header diff).2 = false →
      (process_mnlistdiff st load_mns base_height height local_height
        read_header diff).1 = st) ∧
    ((process_protx_diff st height read_header pdiff).2 = false →
      (process_protx_diff st height read_header pdiff).1 = st) := by
  constructor
  · intro h
    have haux : process_mnlistdiff st load_mns base_height height local_height
        read_header diff = (st, false) ∨
        (process_mnlistdiff st load_mns base_height height local_height
          read_header diff).2 = true := by
      unfold process_mnlistdiff
      dsimp only
      repeat' split
      all_goals first | (left; rfl) | (right; rfl)
    rcases haux with he | ht
    · rw [he]
    · rw [ht] at h
      cases h
  · intro h
    have haux : process_protx_diff st height read_header pdiff = (st, false) ∨
        (process_protx_diff st height read_header pdiff).2 = true := by
      unfold process_protx_diff
      dsimp only
      repeat' split
      all_goals first | (left; rfl) | (right; rfl)
    rcases haux with he | ht
    · rw [he]
    · rw [ht] at h
      cases h

/-- C1 witness: on concrete unsupported-type diffs both workers fail and
leave the concrete state untouched. -/
theorem c1_witness :
    (process_mnlistdiff mnState0 true 0 5 20 (fun _ => none) badTypeDiff).2
      = false ∧
    (process_mnlistdiff mnState0 true 0 5 20 (fun _ => none) badTypeDiff).1
      = mnState0 ∧
    (process_protx_diff mnState0 5 (fun _ => none) badTypeProtxDiff).2
      = false ∧
    (process_protx_diff mnState0 5 (fun _ => none) badTypeProtxDiff).1
      = mnState0 :=
  ⟨by decide,
   (c1_no_mutation_on_failure mnState0 true 0 5 20 (fun _ => none)
      badTypeDiff badTypeProtxDiff).1 (by decide),
   by decide,
   (c1_no_mutation_on_failure mnState0 true 0 5 20 (fun _ => none)
      badTypeDiff badTypeProtxDiff).2 (by decide)⟩

/-! Claim C2. -/

/-- C2 counterexample: a response whose `base_height` (1) differs from the
stored `protx_height` (0) is claimed to be ignored, but `on_protx_diff`
lets it through (the protx protocol's first allowed height is 1 when
nothing is stored yet) and mutates the state. -/
theorem c2_counterexample :
    on_protx_diff mnState0 (some (1, 5)) 1 5 false classicalProtxDiff
      (fun _ => none) ≠ mnState0 := by
  decide

/-- C2 (amended): an unsolicited response (empty pending-request slot), a
response whose `(base_height, height)` differs from the pending request,
and a response whose `base_height` matches no stored height are all
ignored with the state byte-for-byte unchanged — except that
`on_protx_diff` additionally accepts `base_height = 1` when the stored
`protx_height` is 0 (the initial state), so its ignore-guard is
`base_height ≠ protx_height` and not `(protx_height = 0 ∧ base_height = 1)`. -/
theorem c2_stale_ignored (st : MNState) (base_height height : Int) (err : Bool)
    (diff : MNListDiffMsg) (pdiff : ProtxDiff) (load_mns : Bool)
    (local_height : Int) (read_header : Int → Option Str) :
    (on_mnlistdiff st none base_height height err diff load_mns local_height
      read_header = st) ∧
    (∀ qb qh, (qb ≠ base_height ∨ qh ≠ height) →
      on_mnlistdiff st (some (qb, qh)) base_height height err diff load_mns
        local_height read_header = st) ∧
    (base_height ≠ st.llmq_height ∧ base_height ≠ st.protx_height →
      on_mnlistdiff st (some (base_height, height)) base_height height err diff
        load_mns local_height read_header = st) ∧
    (on_protx_diff st none base_height height err pdiff read_header = st) ∧
    (∀ qb qh, (qb ≠ base_height ∨ qh ≠ height) →
      on_protx_diff st (some (qb, qh)) base_height height err pdiff
        read_header = st) ∧
    (base_height ≠ st.protx_height → (st.protx_height ≠ 0 ∨ base_height ≠ 1) →
      on_protx_diff st (some (base_height, height)) base_height height err
        pdiff read_header = st) := by
  refine ⟨rfl, ?_, ?_, rfl, ?_, ?_⟩
  · intro qb qh hne
    unfold on_mnlistdiff
    dsimp only
    rw [if_pos hne]
  · intro hb
    unfold on_mnlistdiff
    dsimp only
    rw [if_neg (by simp), if_pos hb]
  · intro qb qh hne
    unfold on_protx_diff
    dsimp only
    rw [if_pos hne]
  · intro h1 h2
    unfold on_protx_diff
    dsimp only
    rw [if_neg (by simp), if_pos ⟨h1, h2⟩]

/-- C2 witness: the amended ignore-guards at concrete inputs. -/
theorem c2_witness :
    (on_mnlistdiff mnState0 none 9 5 false badTypeDiff true 20 (fun _ => none)
      = mnState0) ∧
    (on_mnlistdiff mnState0 (some (8, 5)) 9 5 false badTypeDiff true 20
      (fun _ => none) = mnState0) ∧
    (on_mnlistdiff mnState0 (some (9, 5)) 9 5 false badTypeDiff true 20
      (fun _ => none) = mnState0) ∧
    (on_protx_diff mnState0 none 9 5 false badTypeProtxDiff (fun _ => none)
      = mnState0) ∧
    (on_protx_diff mnState0 (some (8, 5)) 9 5 false badTypeProtxDiff
      (fun _ => none) = mnState0) ∧
    (on_protx_diff mnState0 (some (9, 5)) 9 5 false badTypeProtxDiff
      (fun _ => none) = mnState0) :=
  ⟨(c2_stale_ignored mnState0 9 5 false badTypeDiff badTypeProtxDiff true 20
      (fun _ => none)).1,
   (c2_stale_ignored mnState0 9 5 false badTypeDiff badTypeProtxDiff true 20
      (fun _ => none)).2.1 8 5 (by decide),
   (c2_stale_ignored mnState0 9 5 false badTypeDiff badTypeProtxDiff true 20
      (fun _ => none)).2.2.1 (by decide),
   (c2_stale_ignored mnState0 9 5 false badTypeDiff badTypeProtxDiff true 20
      (fun _ => none)).2.2.2.1,
   (c2_stale_ignored mnState0 9 5 false badTypeDiff badTypeProtxDiff true 20
      (fun _ => none)).2.2.2.2.1 8 5 (by decide),
   (c2_stale_ignored mnState0 9 5 false badTypeDiff badTypeProtxDiff true 20
      (fun _ => none)).2.2.2.2.2 (by decide) (by decide)⟩

/-! Claim C5. -/

/-- C5 counterexample: the claim says every classical-coinbase diff sets
the state flag to `DIP3_DISABLED`, but when masternode loading is off
(`load_mns = False`) `process_mnlistdiff` succeeds without touching
`protx_state` (which stays `DIP3_UNKNOWN` here). -/
theorem c5_counterexample :
    (process_mnlistdiff mnState0 false 0 5 20 (fun _ => none)
      classicalDiff).2 = true ∧
    (process_mnlistdiff mnState0 false 0 5 20 (fun _ => none)
      classicalDiff).1.protx_state ≠ DIP3_DISABLED := by
  decide

/-- C5 (amended): for a classical-coinbase commitment transaction
processing succeeds and leaves the masternode map, the quorum map and both
content-hash maps unchanged; `on_mnlistdiff`'s worker always advances
`llmq_height` to the requested height but advances `protx_height` and sets
the flag to `DIP3_DISABLED` only when masternode loading is enabled
(otherwise both stay untouched); `on_protx_diff`'s worker unconditionally
advances `protx_height` to the requested height and sets the flag to
`DIP3_DISABLED`. -/
theorem c5_classical_coinbase (st : MNState) (load_mns : Bool)
    (base_height height local_height : Int) (read_header : Int → Option Str)
    (diff : MNListDiffMsg) (pdiff : ProtxDiff)
    (hmt : diff.cbTx.tx_type = 0) (hpt : pdiff.cbTx.tx_type = 0) :
    (process_mnlistdiff st load_mns base_height height local_height
      read_header diff).2 = true ∧
    (process_mnlistdiff st load_mns base_height height local_height
      read_header diff).1.protx_mns = st.protx_mns ∧
    (process_mnlistdiff st load_mns base_height height local_height
      read_header diff).1.sml_hashes = st.sml_hashes ∧
    (process_mnlistdiff st load_mns base_height height local_height
      read_header diff).1.quorums = st.quorums ∧
    (process_mnlistdiff st load_mns base_height height local_height
      read_header diff).1.llmq_hashes = st.llmq_hashes ∧
    (process_mnlistdiff st load_mns base_height height local_height
      read_header diff).1.llmq_height = height ∧
    (load_mns = true →
      (process_mnlistdiff st load_mns base_height height local_height
        read_header diff).1.protx_height = height ∧
      (process_mnlistdiff st load_mns base_height height local_height
        read_header diff).1.protx_state = DIP3_DISABLED) ∧
    (load_mns = false →
      (process_mnlistdiff st load_mns base_height height local_height
        read_header diff).1.protx_height = st.protx_height ∧
      (process_mnlistdiff st load_mns base_height height local_height
        read_header diff).1.protx_state = st.protx_state) ∧
    (process_protx_diff st height read_header pdiff).2 = true ∧
    (process_protx_diff st height read_header pdiff).1.protx_mns
      = st.protx_mns ∧
    (process_protx_diff st height read_header pdiff).1.sml_hashes
      = st.sml_hashes ∧
    (process_protx_diff st height read_header pdiff).1.quorums = st.quorums ∧
    (process_protx_diff st height read_header pdiff).1.llmq_hashes
      = st.llmq_hashes ∧
    (process_protx_diff st height read_header pdiff).1.protx_height = height ∧
    (process_protx_diff st height read_header pdiff).1.protx_state
      = DIP3_DISABLED := by
  have hmt' : ¬ diff.cbTx.tx_type ≠ 0 := by simp [hmt]
  have hpt' : ¬ pdiff.cbTx.tx_type ≠ 0 := by simp [hpt]
  unfold process_mnlistdiff process_protx_diff
  dsimp only
  rw [if_neg hmt', if_neg hpt']
  cases load_mns <;> simp

/-- C5 witness: the amended classical-coinbase behaviour at concrete
inputs with masternode loading enabled. -/
theorem c5_witness :
    (process_mnlistdiff mnState0 true 0 5 20 (fun _ => none)
      classicalDiff).2 = true ∧
    (process_mnlistdiff mnState0 true 0 5 20 (fun _ => none)
      classicalDiff).1.llmq_height = 5 ∧
    (true = true →
      (process_mnlistdiff mnState0 true 0 5 20 (fun _ => none)
        classicalDiff).1.protx_height = 5 ∧
      (process_mnlistdiff mnState0 true 0 5 20 (fun _ => none)
        classicalDiff).1.protx_state = DIP3_DISABLED) ∧
    (process_protx_diff mnState0 5 (fun _ => none) classicalProtxDiff).2
      = true ∧
    (process_protx_diff mnState0 5 (fun _ => none)
      classicalProtxDiff).1.protx_height = 5 ∧
    (process_protx_diff mnState0 5 (fun _ => none)
      classicalProtxDiff).1.protx_state = DIP3_DISABLED := by
  have h := c5_classical_coinbase mnState0 true 0 5 20 (fun _ => none)
    classicalDiff classicalProtxDiff (by decide) (by decide)
  exact ⟨h.1, h.2.2.2.2.2.1, fun _ => h.2.2.2.2.2.2.1 rfl,
    h.2.2.2.2.2.2.2.2.1, h.2.2.2.2.2.2.2.2.2.2.2.2.2.1,
    h.2.2.2.2.2.2.2.2.2.2.2.2.2.2⟩

/-! Claim C10. -/

theorem check_sml_merkle_root_mrq (d : AL Bytes) (ce : CbTxExtra) (mrq : Bytes) :
    check_sml_merkle_root d { ce with merkleRootQuorums := mrq } =
      check_sml_merkle_root d ce := rfl

theorem check_cbtx_merkle_root_mrq (read_header : Int → Option Str)
    (cbtx : CbTx) (mrq : Bytes) (mt : Option (List Str))
    (hs : Option (List Bytes)) :
    check_cbtx_merkle_root read_header
      { cbtx with extra_payload :=
          { cbtx.extra_payload with merkleRootQuorums := mrq } } mt hs =
      check_cbtx_merkle_root read_header cbtx mt hs := rfl

/-- C10: (i) unless `base_height` equals the stored `llmq_height` and the
diff's height is at most the local height minus the LLMQ offset, the quorum
maps are not touched, whatever else the diff does; (ii) when the
commitment's extra-payload version is at most 1 the whole outcome is
independent of the embedded quorum merkle root (so no quorum merkle
verification constrains it); (iii) a successful non-classical diff whose
LLMQ guard holds commits exactly the deletions-then-insertions quorum maps
and advances `llmq_height` to the commitment height. -/
theorem c10_llmq_guard_and_version (st : MNState) (load_mns : Bool)
    (base_height height local_height : Int) (read_header : Int → Option Str)
    (diff : MNListDiffMsg) (mrq mrq' : Bytes) :
    (¬ (base_height = st.llmq_height ∧ height ≤ llmq_tip local_height) →
      (process_mnlistdiff st load_mns base_height height local_height
        read_header diff).1.quorums = st.quorums ∧
      (process_mnlistdiff st load_mns base_height height local_height
        read_header diff).1.llmq_hashes = st.llmq_hashes) ∧
    (diff.cbTx.extra_payload.version ≤ 1 →
      process_mnlistdiff st load_mns base_height height local_height
        read_header (setMRQ diff mrq) =
      process_mnlistdiff st load_mns base_height height local_height
        read_header (setMRQ diff mrq')) ∧
    (diff.cbTx.tx_type ≠ 0 →
      (process_mnlistdiff st load_mns base_height height local_height
        read_header diff).2 = true →
      base_height = st.llmq_height → height ≤ llmq_tip local_height →
      (process_mnlistdiff st load_mns base_height height local_height
        read_header diff).1.quorums =
        (applyQuorumDiff st.quorums st.llmq_hashes diff.deletedQuorums
          diff.newQuorums).1 ∧
      (process_mnlistdiff st load_mns base_height height local_height
        read_header diff).1.llmq_hashes =
        (applyQuorumDiff st.quorums st.llmq_hashes diff.deletedQuorums
          diff.newQuorums).2 ∧
      (process_mnlistdiff st load_mns base_height height local_height
        read_header diff).1.llmq_height = diff.cbTx.extra_payload.height) := by
  refine ⟨?_, ?_, ?_⟩
  · intro hg
    unfold process_mnlistdiff
    dsimp only
    simp only [if_neg hg]
    have h2 : (base_height = st.llmq_height ∧ height ≤ llmq_tip local_height ∧
        1 < diff.cbTx.extra_payload.version) = False :=
      eq_false (by rintro ⟨hp, hq, _⟩; exact hg ⟨hp, hq⟩)
    simp only [h2, false_and, if_false]
    repeat' split
    all_goals simp
  · intro hv
    unfold process_mnlistdiff setMRQ
    dsimp only
    have h2 : (base_height = st.llmq_height ∧ height ≤ llmq_tip local_height ∧
        1 < diff.cbTx.extra_payload.version) = False :=
      eq_false (by rintro ⟨_, _, hr⟩; omega)
    simp only [h2, false_and, if_false, check_sml_merkle_root_mrq,
      check_cbtx_merkle_root_mrq]
  · intro ht hok hp hq
    have hE : base_height = st.llmq_height ∧ height ≤ llmq_tip local_height :=
      ⟨hp, hq⟩
    have haux : (process_mnlistdiff st load_mns base_height height local_height
        read_header diff).2 = false ∨
        ((process_mnlistdiff st load_mns base_height height local_height
          read_header diff).1.quorums =
          (applyQuorumDiff st.quorums st.llmq_hashes diff.deletedQuorums
            diff.newQuorums).1 ∧
        (process_mnlistdiff st load_mns base_height height local_height
          read_header diff).1.llmq_hashes =
          (applyQuorumDiff st.quorums st.llmq_hashes diff.deletedQuorums
            diff.newQuorums).2 ∧
        (process_mnlistdiff st load_mns base_height height local_height
          read_header diff).1.llmq_height
          = diff.cbTx.extra_payload.height) := by
      unfold process_mnlistdiff
      dsimp only
      rw [if_pos ht]
      simp only [if_pos hE]
      repeat' split
      all_goals first
        | (left; rfl)
        | (right; exact ⟨rfl, rfl, rfl⟩)
    rcases haux with hf | hc
    · rw [hok] at hf
      cases hf
    · exact hc

/-- C10 witness: the guard, the version-1 independence and the commit at
concrete inputs (the commit scenario runs the worker end to end with a
passing coinbase merkle check and a junk quorum merkle root). -/
theorem c10_witness :
    ((process_mnlistdiff c10state false 99 12 20
        (fun _ => some (List.replicate 64 48)) c10diff).1.quorums
      = c10state.quorums ∧
     (process_mnlistdiff c10state false 99 12 20
        (fun _ => some (List.replicate 64 48)) c10diff).1.llmq_hashes
      = c10state.llmq_hashes) ∧
    (process_mnlistdiff c10state false 10 12 20
        (fun _ => some (List.replicate 64 48)) (setMRQ c10diff [1]) =
     process_mnlistdiff c10state false 10 12 20
        (fun _ => some (List.replicate 64 48)) (setMRQ c10diff [2])) ∧
    ((process_mnlistdiff c10state false 10 12 20
        (fun _ => some (List.replicate 64 48)) c10diff).1.quorums =
        (applyQuorumDiff c10state.quorums c10state.llmq_hashes
          c10diff.deletedQuorums c10diff.newQuorums).1 ∧
     (process_mnlistdiff c10state false 10 12 20
        (fun _ => some (List.replicate 64 48)) c10diff).1.llmq_hashes =
        (applyQuorumDiff c10state.quorums c10state.llmq_hashes
          c10diff.deletedQuorums c10diff.newQuorums).2 ∧
     (process_mnlistdiff c10state false 10 12 20
        (fun _ => some (List.replicate 64 48)) c10diff).1.llmq_height
       = c10diff.cbTx.extra_payload.height) :=
  ⟨(c10_llmq_guard_and_version c10state false 99 12 20
      (fun _ => some (List.replicate 64 48)) c10diff [1] [2]).1 (by decide),
   (c10_llmq_guard_and_version c10state false 10 12 20
      (fun _ => some (List.replicate 64 48)) c10diff [1] [2]).2.1 (by decide),
   (c10_llmq_guard_and_version c10state false 10 12 20
      (fun _ => some (List.replicate 64 48)) c10diff [1] [2]).2.2 (by decide)
      (by decide) (by decide) (by decide)⟩
